import Mathlib

/-!
Verification development for the ai-chat-bot repository.

We shallowly embed the Python modules that the specification talks about:

* `infra/db/sqlite.py`    — turn reconstruction, profile upsert, message insert
* `core/config.py`        — cached policy loading (`load_system_rules`)
* `app/prompting.py`      — `build_prompt`
* `infra/llm/ollama_client.py` and `infra/llm/openai_compat_client.py`
  — `_extract_json_object`, shared output normalization, `generate_contract`

Python strings are modelled as Lean `String` (a wrapper around `List Char`,
matching Python code points), Python `None` as `Option`, raised exceptions
as `Except`, and the HTTP layer as explicit inputs describing the outcome
of each request.  `json.loads` / `json.dumps` are modelled by an executable
JSON parser / serializer over an inductive JSON value type.
-/

namespace ACB

/-! ## Python string primitives -/

/-- The open-brace character, written via its code point. -/
def lbrace : Char := Char.ofNat 123

/-- The close-brace character, written via its code point. -/
def rbrace : Char := Char.ofNat 125

/-- The single-quote character, written via its code point. -/
def squote : Char := Char.ofNat 39

/-- Characters treated as whitespace by Python `str.strip()`. -/
def isPySpace (c : Char) : Bool :=
  c = ' ' || c = '\t' || c = '\n' || c = '\r' || c = Char.ofNat 11 || c = Char.ofNat 12

/-- `str.strip()` on a list of characters: drop Python whitespace from both ends. -/
def pyStripCL (l : List Char) : List Char :=
  ((l.dropWhile isPySpace).reverse.dropWhile isPySpace).reverse

/-- Python `str.strip()`. -/
def pyStrip (s : String) : String := String.mk (pyStripCL s.data)

/-- Python `a or b` for strings (`a` is falsy exactly when empty). -/
def pyOr (a b : String) : String := if a = "" then b else a

/-- Does `hay` start with `needle` (character lists)? -/
def startsWithCL : List Char → List Char → Bool
  | [], _ => true
  | _ :: _, [] => false
  | a :: as, b :: bs => a = b && startsWithCL as bs

/-- Contiguous-substring test on character lists (Python `needle in hay`). -/
def subListCL (needle : List Char) : List Char → Bool
  | [] => startsWithCL needle []
  | c :: t => startsWithCL needle (c :: t) || subListCL needle t

/-- Python `needle in hay` on strings. -/
def pyIn (needle hay : String) : Bool := subListCL needle.data hay.data

/-- Python `str.lower()` (ASCII case folding suffices for the texts involved). -/
def pyLower (s : String) : String := String.mk (s.data.map Char.toLower)

/-- The last `n` elements of a list (`l[len(l)-n:]`). -/
def takeLastN (n : Nat) (l : List α) : List α := l.drop (l.length - n)

/-- Python slice `s[-n:]` for a natural `n`: for `n = 0` this is the whole
string (Python `s[-0:] = s[0:] = s`), otherwise the last `n` characters. -/
def pySliceLast (n : Nat) (s : String) : String :=
  if n = 0 then s else String.mk (takeLastN n s.data)

/-- Python `sep.join(xs)`. -/
def joinSep (sep : String) : List String → String
  | [] => ""
  | [x] => x
  | x :: y :: xs => x ++ sep ++ joinSep sep (y :: xs)

/-- Python `s[:n]` (used for `r.text[:200]`). -/
def pyTake (n : Nat) (s : String) : String := String.mk (s.data.take n)

/-! ## JSON values, modelling the results of Python `json.loads` -/

/-- JSON values.  Numbers keep their source lexeme: no claim inspects
numeric values, only truthiness (zero-ness) of contract fields. -/
inductive J where
  | null : J
  | bool : Bool → J
  | num : String → J
  | str : String → J
  | arr : List J → J
  | obj : List (String × J) → J

/-- Whether a JSON whitespace character (the four characters of RFC 8259,
which is what Python `json.loads` skips between tokens). -/
def isJsonWs (c : Char) : Bool :=
  c = ' ' || c = '\t' || c = '\n' || c = '\r'

/-- Skip JSON whitespace. -/
def skipWs (l : List Char) : List Char := l.dropWhile isJsonWs

/-- Hex digit value, if any. -/
def hexVal (c : Char) : Option Nat :=
  if '0' ≤ c ∧ c ≤ '9' then some (c.toNat - '0'.toNat)
  else if 'a' ≤ c ∧ c ≤ 'f' then some (c.toNat - 'a'.toNat + 10)
  else if 'A' ≤ c ∧ c ≤ 'F' then some (c.toNat - 'A'.toNat + 10)
  else none

/-- Parse the body of a JSON string literal (after the opening quote),
returning the decoded characters and the remaining input.  Strict mode:
unescaped control characters below U+0020 are rejected, as in `json.loads`. -/
def parseStrBody : List Char → Option (List Char × List Char)
  | [] => none
  | '"' :: rest => some ([], rest)
  | '\\' :: esc =>
    match esc with
    | '"' :: rest => (parseStrBody rest).map (fun p => ('"' :: p.1, p.2))
    | '\\' :: rest => (parseStrBody rest).map (fun p => ('\\' :: p.1, p.2))
    | '/' :: rest => (parseStrBody rest).map (fun p => ('/' :: p.1, p.2))
    | 'b' :: rest => (parseStrBody rest).map (fun p => (Char.ofNat 8 :: p.1, p.2))
    | 'f' :: rest => (parseStrBody rest).map (fun p => (Char.ofNat 12 :: p.1, p.2))
    | 'n' :: rest => (parseStrBody rest).map (fun p => ('\n' :: p.1, p.2))
    | 'r' :: rest => (parseStrBody rest).map (fun p => ('\r' :: p.1, p.2))
    | 't' :: rest => (parseStrBody rest).map (fun p => ('\t' :: p.1, p.2))
    | 'u' :: a :: b :: c :: d :: rest =>
      match hexVal a, hexVal b, hexVal c, hexVal d with
      | some ha, some hb, some hc, some hd =>
        (parseStrBody rest).map
          (fun p => (Char.ofNat (((ha * 16 + hb) * 16 + hc) * 16 + hd) :: p.1, p.2))
      | _, _, _, _ => none
    | _ => none
  | c :: rest =>
    if c.toNat < 32 then none
    else (parseStrBody rest).map (fun p => (c :: p.1, p.2))

/-- One or more decimal digits, greedily. -/
def takeDigits (l : List Char) : List Char × List Char :=
  (l.takeWhile Char.isDigit, l.dropWhile Char.isDigit)

/-- Parse the integer part of a JSON number (after an optional sign):
`0` alone or a nonzero digit followed by digits. -/
def parseIntPart : List Char → Option (List Char × List Char)
  | '0' :: rest => some (['0'], rest)
  | c :: rest =>
    if c.isDigit then
      let (ds, r) := takeDigits rest
      some (c :: ds, r)
    else none
  | [] => none

/-- Parse the optional fraction part `.digits`. -/
def parseFracPart (l : List Char) : Option (List Char × List Char) :=
  match l with
  | '.' :: rest =>
    let (ds, r) := takeDigits rest
    if ds.isEmpty then none else some ('.' :: ds, r)
  | _ => some ([], l)

/-- Parse the optional exponent part `[eE][+-]?digits`. -/
def parseExpPart (l : List Char) : Option (List Char × List Char) :=
  match l with
  | c :: rest =>
    if c = 'e' ∨ c = 'E' then
      match rest with
      | s :: rest2 =>
        if s = '+' ∨ s = '-' then
          let (ds, r) := takeDigits rest2
          if ds.isEmpty then none else some (c :: s :: ds, r)
        else
          let (ds, r) := takeDigits rest
          if ds.isEmpty then none else some (c :: ds, r)
      | [] => none
    else some ([], l)
  | [] => some ([], l)

/-- Parse a JSON number lexeme (including the Python-accepted
`NaN` / `Infinity` / `-Infinity`), returning the lexeme and the rest. -/
def parseNumLex (l : List Char) : Option (List Char × List Char) :=
  match l with
  | 'N' :: 'a' :: 'N' :: rest => some ("NaN".data, rest)
  | 'I' :: 'n' :: 'f' :: 'i' :: 'n' :: 'i' :: 't' :: 'y' :: rest => some ("Infinity".data, rest)
  | '-' :: 'I' :: 'n' :: 'f' :: 'i' :: 'n' :: 'i' :: 't' :: 'y' :: rest =>
    some ("-Infinity".data, rest)
  | '-' :: rest => do
    let (ip, r1) ← parseIntPart rest
    let (fp, r2) ← parseFracPart r1
    let (ep, r3) ← parseExpPart r2
    pure ('-' :: (ip ++ fp ++ ep), r3)
  | _ => do
    let (ip, r1) ← parseIntPart l
    let (fp, r2) ← parseFracPart r1
    let (ep, r3) ← parseExpPart r2
    pure (ip ++ fp ++ ep, r3)

mutual

/-- Fueled recursive-descent parser for one JSON value (model of the
grammar accepted by Python `json.loads`). -/
def parseVal : Nat → List Char → Option (J × List Char)
  | 0, _ => none
  | fuel + 1, l =>
    match skipWs l with
    | [] => none
    | c :: rest =>
      if c = '"' then
        (parseStrBody rest).map (fun p => (J.str (String.mk p.1), p.2))
      else if c = lbrace then
        match skipWs rest with
        | d :: rest2 =>
          if d = rbrace then some (J.obj [], rest2)
          else parseMembers fuel (d :: rest2) []
        | [] => none
      else if c = '[' then
        match skipWs rest with
        | ']' :: rest2 => some (J.arr [], rest2)
        | l2 => parseElems fuel l2 []
      else
        match c :: rest with
        | 't' :: 'r' :: 'u' :: 'e' :: r => some (J.bool true, r)
        | 'f' :: 'a' :: 'l' :: 's' :: 'e' :: r => some (J.bool false, r)
        | 'n' :: 'u' :: 'l' :: 'l' :: r => some (J.null, r)
        | l2 => (parseNumLex l2).map (fun p => (J.num (String.mk p.1), p.2))

/-- Parse the members of a JSON object after the opening brace (input is
positioned at the first key).  `acc` holds the members parsed so far,
in reverse; duplicate keys are all kept, as `json.loads` sees them
(lookups later take the last binding, matching Python dict semantics). -/
def parseMembers : Nat → List Char → List (String × J) → Option (J × List Char)
  | 0, _, _ => none
  | fuel + 1, l, acc =>
    match skipWs l with
    | '"' :: rest =>
      match parseStrBody rest with
      | none => none
      | some (key, r1) =>
        match skipWs r1 with
        | ':' :: r2 =>
          match parseVal fuel r2 with
          | none => none
          | some (v, r3) =>
            match skipWs r3 with
            | ',' :: r4 => parseMembers fuel r4 ((String.mk key, v) :: acc)
            | d :: r4 =>
              if d = rbrace then some (J.obj ((String.mk key, v) :: acc).reverse, r4)
              else none
            | [] => none
        | _ => none
    | _ => none

/-- Parse the elements of a JSON array after the opening bracket (input is
positioned at the first element).  `acc` holds elements parsed so far, reversed. -/
def parseElems : Nat → List Char → List J → Option (J × List Char)
  | 0, _, _ => none
  | fuel + 1, l, acc =>
    match parseVal fuel l with
    | none => none
    | some (v, r1) =>
      match skipWs r1 with
      | ',' :: r2 => parseElems fuel r2 (v :: acc)
      | ']' :: r2 => some (J.arr (v :: acc).reverse, r2)
      | _ => none

end

/-- Model of Python `json.loads`: parse one JSON value with no trailing
garbage (beyond whitespace), else fail. -/
def jsonParse (s : String) : Option J :=
  match parseVal (s.data.length + 1) s.data with
  | some (v, rest) => if skipWs rest = [] then some v else none
  | none => none

/-! ## JSON serialization and Python value semantics -/

/-- Escape one character for a JSON string literal, as
`json.dumps(..., ensure_ascii=False)` does. -/
def jsonEscChar (c : Char) : List Char :=
  if c = '"' then ['\\', '"']
  else if c = '\\' then ['\\', '\\']
  else if c = '\n' then ['\\', 'n']
  else if c = '\t' then ['\\', 't']
  else if c = '\r' then ['\\', 'r']
  else if c = Char.ofNat 8 then ['\\', 'b']
  else if c = Char.ofNat 12 then ['\\', 'f']
  else if c.toNat < 32 then
    let hx := fun (n : Nat) => if n < 10 then Char.ofNat ('0'.toNat + n)
      else Char.ofNat ('a'.toNat + (n - 10))
    ['\\', 'u', '0', '0', hx (c.toNat / 16), hx (c.toNat % 16)]
  else [c]

/-- JSON string literal for `s`, double-quoted and escaped. -/
def jsonQuote (s : String) : String :=
  String.mk ('"' :: (s.data.flatMap jsonEscChar) ++ ['"'])

mutual

/-- Structural size of a JSON value, used as serializer fuel. -/
def jSize : J → Nat
  | .null | .bool _ | .num _ | .str _ => 1
  | .arr xs => 1 + jSizeList xs
  | .obj kvs => 1 + jSizeMembers kvs

/-- Structural size of a list of JSON values. -/
def jSizeList : List J → Nat
  | [] => 0
  | x :: xs => 1 + jSize x + jSizeList xs

/-- Structural size of an object member list. -/
def jSizeMembers : List (String × J) → Nat
  | [] => 0
  | kv :: kvs => 1 + jSize kv.2 + jSizeMembers kvs

end

/-- Fueled body of the compact serializer (model of
`json.dumps(x, ensure_ascii=False)`, with the default separators). -/
def dumpsF : Nat → J → String
  | 0, _ => ""
  | _ + 1, .null => "null"
  | _ + 1, .bool true => "true"
  | _ + 1, .bool false => "false"
  | _ + 1, .num lex => lex
  | _ + 1, .str s => jsonQuote s
  | fuel + 1, .arr xs =>
    "[" ++ joinSep ", " (xs.map (dumpsF fuel)) ++ "]"
  | fuel + 1, .obj kvs =>
    String.mk lbrace.toString.data ++
      joinSep ", " (kvs.map (fun kv => jsonQuote kv.1 ++ ": " ++ dumpsF fuel kv.2)) ++
      rbrace.toString

/-- Model of Python `json.dumps(x, ensure_ascii=False)`. -/
def pyJsonDumps (v : J) : String := dumpsF (jSize v + 1) v

/-- Repeated spaces, for the indented serializer. -/
def spaces (n : Nat) : String := String.mk (List.replicate n ' ')

/-- Fueled body of the indented serializer (model of
`json.dumps(x, ensure_ascii=False, indent=2)`); `ind` is the current depth. -/
def dumpsIndF : Nat → Nat → J → String
  | 0, _, _ => ""
  | _ + 1, _, .null => "null"
  | _ + 1, _, .bool true => "true"
  | _ + 1, _, .bool false => "false"
  | _ + 1, _, .num lex => lex
  | _ + 1, _, .str s => jsonQuote s
  | _ + 1, _, .arr [] => "[]"
  | fuel + 1, ind, .arr (x :: xs) =>
    "[\n" ++
      joinSep ",\n" ((x :: xs).map (fun v => spaces (ind + 2) ++ dumpsIndF fuel (ind + 2) v)) ++
      "\n" ++ spaces ind ++ "]"
  | _ + 1, _, .obj [] => lbrace.toString ++ rbrace.toString
  | fuel + 1, ind, .obj (kv :: kvs) =>
    lbrace.toString ++ "\n" ++
      joinSep ",\n" ((kv :: kvs).map
        (fun p => spaces (ind + 2) ++ jsonQuote p.1 ++ ": " ++ dumpsIndF fuel (ind + 2) p.2)) ++
      "\n" ++ spaces ind ++ rbrace.toString

/-- Model of Python `json.dumps(x, ensure_ascii=False, indent=2)`, used by
both clients to build `prompt_used`. -/
def pyJsonDumpsIndent2 (v : J) : String := dumpsIndF (jSize v + 1) 0 v

/-- Escape one character inside a Python single-quoted `repr` literal. -/
def pyReprEscChar (c : Char) : List Char :=
  if c = squote then ['\\', squote]
  else if c = '\\' then ['\\', '\\']
  else if c = '\n' then ['\\', 'n']
  else if c = '\t' then ['\\', 't']
  else if c = '\r' then ['\\', 'r']
  else [c]

/-- Python `repr` of a string (simplified: always single-quoted). -/
def pyReprStr (s : String) : String :=
  String.mk (squote :: (s.data.flatMap pyReprEscChar) ++ [squote])

/-- Fueled body of the Python `repr` model for values decoded from JSON. -/
def pyReprF : Nat → J → String
  | 0, _ => ""
  | _ + 1, .null => "None"
  | _ + 1, .bool true => "True"
  | _ + 1, .bool false => "False"
  | _ + 1, .num lex => lex
  | _ + 1, .str s => pyReprStr s
  | fuel + 1, .arr xs =>
    "[" ++ joinSep ", " (xs.map (pyReprF fuel)) ++ "]"
  | fuel + 1, .obj kvs =>
    lbrace.toString ++
      joinSep ", " (kvs.map (fun kv => pyReprStr kv.1 ++ ": " ++ pyReprF fuel kv.2)) ++
      rbrace.toString

/-- Python `str(x)` for a value decoded from JSON: identity on strings,
`repr`-style rendering otherwise (as in f-string interpolation). -/
def pyStr : J → String
  | .str s => s
  | v => pyReprF (jSize v + 1) v

/-- Whether a JSON number lexeme denotes a nonzero number: some digit of
the mantissa (before any exponent) is nonzero, or the mantissa is the
letters of NaN/Infinity.  The exponent never affects zero-ness
(Python `0e5` is falsy), so only the mantissa is inspected. -/
def numLexNonZero (lex : String) : Bool :=
  let mant := lex.data.takeWhile (fun c => c ≠ 'e' ∧ c ≠ 'E')
  mant.any (fun c => c.isDigit && c ≠ '0') || mant.any (fun c => c.isAlpha)

/-- Python truthiness of a value decoded from JSON. -/
def pyTruthy : J → Bool
  | .null => false
  | .bool b => b
  | .str s => s ≠ ""
  | .arr [] => false
  | .arr (_ :: _) => true
  | .obj [] => false
  | .obj (_ :: _) => true
  | .num lex => numLexNonZero lex

/-- Last-binding lookup in a decoded JSON object, matching Python dict
construction from `json.loads` (later duplicate keys overwrite earlier). -/
def dictGet (kvs : List (String × J)) (k : String) : Option J :=
  (kvs.reverse.find? (fun kv => kv.1 == k)).map (fun kv => kv.2)

/-- Exceptions our embedding distinguishes. -/
inductive PyErr where
  | attributeError : PyErr
  | typeError : PyErr
  | keyError : PyErr
deriving DecidableEq

/-- Model of the pattern `(d.get(k) or "").strip()` applied to the value
`v = d.get(k)`: falsy values collapse to the empty string, truthy strings
are stripped, and a truthy non-string raises `AttributeError` because it
has no `.strip` method. -/
def pyStrField : Option J → Except PyErr String
  | none => .ok ""
  | some v =>
    if pyTruthy v then
      match v with
      | .str s => .ok (pyStrip s)
      | _ => .error .attributeError
    else .ok ""

/-! ## `infra/db/sqlite.py`: turn reconstruction (`fetch_recent_events`) -/

/-- One row of the `message` table as selected by `fetch_recent_events`
(`role, text, created_at, telegram_date`), in insertion (id) order.
SQL `NULL` text / timestamps are modelled as `""` (both are falsy in the
Python code, which only ever applies `or` / `strip` to them). -/
structure EventRow where
  role : String
  text : String
  created_at : String
  telegram_date : Option Int
deriving DecidableEq

/-- A reconstructed turn, as the dict
`{"timestamp": ts, "user": u, "assistant": a}`. -/
structure Turn where
  timestamp : String
  user : String
  assistant : String
deriving DecidableEq

/-- The single-pass pairing scan of `fetch_recent_events` (lines 243-269):
`pending` carries the stripped text and raw timestamp of the last
unanswered user event. -/
def reconstructGo : List EventRow → Option (String × String) → List Turn
  | [], _ => []
  | r :: rest, pending =>
    let role := pyStrip r.role
    let text := pyStrip r.text
    if role = "user" then reconstructGo rest (some (text, r.created_at))
    else if role = "assistant" then
      match pending with
      | none => reconstructGo rest none
      | some pu =>
        { timestamp := pyOr pu.2 (pyOr r.created_at ""),
          user := pu.1, assistant := text } :: reconstructGo rest none
    else reconstructGo rest pending

/-- Turn reconstruction over a chronologically ordered row list. -/
def reconstructTurns (rows : List EventRow) : List Turn := reconstructGo rows none

/-- Model of `fetch_recent_events(chat_id, limit_turns)`: the SQL query
takes the last `max(20, 4 * limit_turns)` rows of the chat (by id), the
scan reconstructs turns, and `turns[-limit_turns:]` keeps the most recent
ones — with the Python quirk that a `-0` slice keeps everything. -/
def fetchRecentEvents (events : List EventRow) (limit_turns : Nat) : List Turn :=
  let window := takeLastN (max 20 (limit_turns * 4)) events
  let turns := reconstructTurns window
  if limit_turns < turns.length then
    (if limit_turns = 0 then turns else takeLastN limit_turns turns)
  else turns

/-! ## `infra/db/sqlite.py`: user profile (`get_user_description` /
`update_user_description`) -/

/-- The `user_state` table: one row per `telegram_user_id`, holding the
(non-null) `user_description`.  Modelled as an association list. -/
abbrev UserStateTable := List (Int × String)

/-- Model of `get_user_description`: return the stored description;
if the row is missing, insert an empty one (`ON CONFLICT DO NOTHING`)
and return the empty string.  Result: (possibly updated table, value). -/
def getUserDescription (s : UserStateTable) (uid : Int) : UserStateTable × String :=
  match s.find? (fun p => p.1 == uid) with
  | some p => (s, p.2)
  | none => (s ++ [(uid, "")], "")

/-- Model of `update_user_description`: upsert
(`ON CONFLICT DO UPDATE SET user_description = excluded.user_description`),
storing `user_description or ""`. -/
def updateUserDescription (s : UserStateTable) (uid : Int) (d : String) : UserStateTable :=
  match s.find? (fun p => p.1 == uid) with
  | some _ => s.map (fun p => if p.1 == uid then (p.1, pyOr d "") else p)
  | none => s ++ [(uid, pyOr d "")]

/-! ## `infra/db/sqlite.py`: message log (`insert_message` and the unique
index `idx_message_update_id_unique` on `message(update_id)`) -/

/-- One row of the `message` table, with the columns `insert_message`
populates. -/
structure MsgRow where
  update_id : Option Int
  telegram_message_id : Option Int
  chat_telegram_id : Int
  from_telegram_user_id : Option Int
  role : String
  text : Option String
  telegram_date : Option Int
deriving DecidableEq

/-- The `message` table in insertion order. -/
abbrev MsgTable := List MsgRow

/-- Model of `insert_message` under the schema of `init_db`: a plain
`INSERT` that SQLite rejects (IntegrityError, no row written) when the
unique index on `update_id` would be violated; `NULL` update ids are
exempt, as SQL `NULL`s are pairwise distinct for unique indexes. -/
def insertMessage (s : MsgTable) (r : MsgRow) : Except PyErr MsgTable :=
  match r.update_id with
  | some u =>
    if s.any (fun row => row.update_id == some u) then .error .keyError
    else .ok (s ++ [r])
  | none => .ok (s ++ [r])

/-- Apply a sequence of `insert_message` calls, each failure leaving the
table unchanged (the adapter catches and ignores the exception). -/
def applyInserts (ops : List MsgRow) : MsgTable :=
  ops.foldl (fun s r => match insertMessage s r with | .ok s2 => s2 | .error _ => s) []

/-- The dedup invariant: no two stored rows carry the same non-null
external update id. -/
def UpdateIdUnique (s : MsgTable) : Prop :=
  ∀ u : Int, (s.countP (fun row => row.update_id == some u)) ≤ 1

/-! ## `core/config.py`: `load_system_rules` with `lru_cache(maxsize=1)` -/

/-- Process-wide cache of the policy text (`lru_cache` slot). -/
structure RulesCache where
  cached : Option String
deriving DecidableEq

/-- One call to `load_system_rules`, given what reading the file would
yield at this moment (`disk`): a cache hit skips the disk entirely;
otherwise the file is read and its stripped text cached; a missing file
raises `SystemExit` (and `lru_cache` caches nothing on an exception).
Returns the result together with the new cache and how many file reads
this call performed. -/
def loadSystemRules (disk : Except Unit String) (c : RulesCache) :
    Except Unit String × RulesCache × Nat :=
  match c.cached with
  | some t => (.ok t, c, 0)
  | none =>
    match disk with
    | .ok txt => (.ok (pyStrip txt), ⟨some (pyStrip txt)⟩, 1)
    | .error _ => (.error (), c, 1)

/-- Run a sequence of `load_system_rules` calls against a sequence of
momentary on-disk contents; returns the per-call results and the total
number of file reads. -/
def runLoads : List (Except Unit String) → RulesCache → List (Except Unit String) × Nat
  | [], _ => ([], 0)
  | d :: ds, c =>
    let (r, c2, n) := loadSystemRules d c
    let (rs, m) := runLoads ds c2
    (r :: rs, n + m)

/-! ## `app/prompting.py`: `build_prompt` -/

/-- The `ChatContext` dataclass. -/
structure ChatContext where
  chat_id : String
  chat_type : String
  user_name : String
  user_id : Option Int
  locale : Option String

/-- The `MemoryItem` dataclass. -/
structure MemoryItem where
  kind : String
  content : String
  weight : Int

/-- The chat-context section of the prompt (section 2 of `build_prompt`). -/
def chatContextSection (chat : ChatContext) : String :=
  "### CHAT CONTEXT\n- chat_id: " ++ chat.chat_id ++
    "\n- chat_type: " ++ chat.chat_type ++
    "\n- user_name: " ++ chat.user_name ++ "\n" ++
    (match chat.user_id with
     | some n => "- user_id: " ++ toString n ++ "\n"
     | none => "") ++
    (match chat.locale with
     | some l => if l = "" then "" else "- locale: " ++ l ++ "\n"
     | none => "")

/-- One rendered memory line, skipping items whose content strips to
nothing (`if not c: continue`). -/
def memoryLine (m : MemoryItem) : Option String :=
  let c := pyStrip m.content
  if c = "" then none else some ("- [" ++ m.kind ++ "] " ++ c)

/-- One rendered history pair, skipping pairs with an empty side
(`if not u or not a: continue`). -/
def historyLine (pair : String × String) : Option String :=
  let u := pyStrip pair.1
  let a := pyStrip pair.2
  if u = "" ∨ a = "" then none
  else some ("User: " ++ u ++ "\nAssistant: " ++ a)

/-- The new-message section (section 5 of `build_prompt`). -/
def newMessageSection (user_text : String) : String :=
  "### NEW MESSAGE\nUser: " ++ pyStrip user_text ++ "\nAssistant:"

/-- The sections `build_prompt` assembles before the final new-message
section: optional core behavior, chat context, optional memory, optional
conversation history. -/
def promptFront (chat : ChatContext) (core_behavior : String)
    (memory : List MemoryItem) (history : List (String × String)) : List String :=
  (if pyStrip core_behavior = "" then []
   else ["### CORE BEHAVIOR\n" ++ pyStrip core_behavior]) ++
  [chatContextSection chat] ++
  (match memory.filterMap memoryLine with
   | [] => []
   | l :: ls => ["### MEMORY\n" ++ joinSep "\n" (l :: ls)]) ++
  (match history.filterMap historyLine with
   | [] => []
   | l :: ls => ["### CONVERSATION SO FAR\n" ++ joinSep "\n\n" (l :: ls)])

/-- The section list `build_prompt` assembles before joining. -/
def promptSections (chat : ChatContext) (user_text core_behavior : String)
    (memory : List MemoryItem) (history : List (String × String)) : List String :=
  promptFront chat core_behavior memory history ++ [newMessageSection user_text]

/-- The assembled prompt before the length cap:
`"\n\n".join(sections).strip()`. -/
def assembledPrompt (chat : ChatContext) (user_text core_behavior : String)
    (memory : List MemoryItem) (history : List (String × String)) : String :=
  pyStrip (joinSep "\n\n" (promptSections chat user_text core_behavior memory history))

/-- Model of `prompting.build_prompt`: the assembled prompt, hard-trimmed
to its final `max_chars` characters when longer (`prompt[-max_chars:]`,
with the Python `-0` slice quirk). -/
def buildPrompt (chat : ChatContext) (user_text core_behavior : String)
    (memory : List MemoryItem) (history : List (String × String))
    (max_chars : Nat) : String :=
  let prompt := assembledPrompt chat user_text core_behavior memory history
  if max_chars < prompt.length then pySliceLast max_chars prompt else prompt

/-! ## LLM clients: shared JSON extraction and output normalization -/

/-- Prefix of `l` up to and including its last `rbrace`, if any
(how the greedy `.*` of the regex backtracks to the last close brace). -/
def lastRBSpan (l : List Char) : Option (List Char) :=
  if ((l.reverse).dropWhile (fun c => c ≠ rbrace)).isEmpty then none
  else some ((l.reverse).dropWhile (fun c => c ≠ rbrace)).reverse

/-- Attempt of the regex `\{.*\}` (DOTALL) anchored at the current
position: succeeds when the head is an open brace and some close brace
follows, matching greedily through the last close brace. -/
def braceMatchAt (l : List Char) : Option (List Char) :=
  match l with
  | [] => none
  | c :: rest =>
    if c = lbrace then (lastRBSpan rest).map (fun b => c :: b) else none

/-- Model of `re.search(r"\{.*\}", s, flags=re.DOTALL)`: try each start
position left to right. -/
def reSearchBrace : List Char → Option (List Char)
  | [] => none
  | c :: rest =>
    match braceMatchAt (c :: rest) with
    | some m => some m
    | none => reSearchBrace rest

/-- Model of `_extract_json_object` (identical in both clients): strip,
try `json.loads` on the whole string, then on the first regex match of
`\{.*\}`; any parse failure yields `None`. -/
def extractJsonObject (s : String) : Option J :=
  let t := pyStrip s
  if t = "" then none
  else
    match jsonParse t with
    | some v => some v
    | none =>
      match reSearchBrace t.data with
      | none => none
      | some m => jsonParse (String.mk m)

/-- The object fields when an extraction result is a dict, else `none`
(the `isinstance(parsed, dict)` check). -/
def jObjFields : Option J → Option (List (String × J))
  | some (.obj kvs) => some kvs
  | _ => none

/-- A parsed contract response. -/
structure Contract where
  assistant_text : String
  updated_user_description : String
deriving DecidableEq

/-- The placeholder substituted for an empty assistant text. -/
def placeholderText : String := "(no response from model)"

/-- The shared output normalization both clients apply to the raw model
output (ollama lines 112-127, openai lines 223-241): extract a JSON
object; a non-dict result degrades to the raw text (or the placeholder
when empty); otherwise both contract fields are read via
`(parsed.get(k) or "").strip()` — which raises on truthy non-strings —
and an empty assistant text becomes the placeholder. -/
def normalizeModelOutput (text : String) : Except PyErr Contract :=
  match jObjFields (extractJsonObject text) with
  | none => .ok ⟨pyOr text placeholderText, ""⟩
  | some kvs => do
    let a ← pyStrField (dictGet kvs "assistant_text")
    let u ← pyStrField (dictGet kvs "updated_user_description")
    .ok ⟨pyOr a placeholderText, u⟩

/-! ## `infra/llm/ollama_client.py`: `generate_contract` -/

/-- Outcome of an HTTP request that did not raise: status code and body
text.  `r.json()` is modelled as `jsonParse` of the body. -/
structure HttpResp where
  status : Nat
  text : String
deriving DecidableEq

/-- The request payload `generate_contract` posts to `/api/generate`. -/
def ollamaPayload (modelName rulesText promptUsed : String) : J :=
  J.obj [("model", J.str modelName), ("system", J.str rulesText),
    ("prompt", J.str promptUsed), ("stream", J.bool false),
    ("format", J.str "json"),
    ("options", J.obj [("temperature", J.num "0.2"), ("num_predict", J.num "400")])]

/-- The `err` object computed on a non-2xx ollama response:
`r.json().get("error", r.text)` with every exception (non-JSON body,
non-dict JSON) collapsing to `r.text`. -/
def ollamaErrVal (bodyText : String) : J :=
  match jsonParse bodyText with
  | some (.obj kvs) => (dictGet kvs "error").getD (J.str bodyText)
  | _ => J.str bodyText

/-- Model of `ollama_client.generate_contract`.  Inputs stand for the
ambient world: the configured model name and system-rules text, the model
list `_list_models()` would return (empty on any error), the outcome of
the single POST (`.error e` when `requests` raises with message `e`),
and the request object.  The result is the returned pair, or `.error`
when the Python function raises. -/
def ollamaGenerate (modelName rulesText : String) (listModels : List String)
    (post : Except String HttpResp) (requestObj : J) :
    Except PyErr (Contract × String) :=
  let promptUsed := pyJsonDumpsIndent2 requestObj
  let _payload := ollamaPayload modelName rulesText promptUsed
  match post with
  | .error e =>
    .ok (⟨"Ollama connection error: " ++ e, ""⟩, promptUsed)
  | .ok r =>
    if 400 ≤ r.status then
      let errV := ollamaErrVal r.text
      let errS := pyLower (pyStr errV)
      if pyIn "model" errS && pyIn "not found" errS then
        let msg :=
          match listModels with
          | [] => "Model " ++ squote.toString ++ modelName ++ squote.toString ++
              " not found. (No model list available.)"
          | m :: ms => "Model " ++ squote.toString ++ modelName ++ squote.toString ++
              " not found. Available: " ++ joinSep ", " (m :: ms)
        .ok (⟨msg, ""⟩, promptUsed)
      else
        .ok (⟨"Ollama error " ++ toString r.status ++ ": " ++ pyStr errV, ""⟩, promptUsed)
    else
      match jsonParse r.text with
      | none =>
        .ok (⟨"Ollama returned non-JSON response: " ++ pyTake 200 r.text, ""⟩, promptUsed)
      | some (.obj kvs) => do
        let text ← pyStrField (dictGet kvs "response")
        let c ← normalizeModelOutput text
        .ok (c, promptUsed)
      | some _ => .error .attributeError

/-! ## `infra/llm/openai_compat_client.py`: `generate_contract` -/

/-- `_response_format_schema()`: the strict structured-output mode, an
object with exactly the two required string fields and no others. -/
def responseFormatSchema : J :=
  J.obj [("type", J.str "json_schema"),
    ("json_schema", J.obj [("name", J.str "assistant_contract"),
      ("strict", J.bool true),
      ("schema", J.obj [("type", J.str "object"),
        ("additionalProperties", J.bool false),
        ("properties", J.obj [
          ("assistant_text", J.obj [("type", J.str "string")]),
          ("updated_user_description", J.obj [("type", J.str "string")])]),
        ("required", J.arr [J.str "assistant_text",
          J.str "updated_user_description"])])])]

/-- The looser fallback response format. -/
def responseFormatJsonObject : J := J.obj [("type", J.str "json_object")]

/-- `_build_payload(prompt_used, response_format)`. -/
def oaiPayload (modelName rulesText promptUsed : String) (rf : J) : J :=
  J.obj [("model", J.str modelName),
    ("messages", J.arr [
      J.obj [("role", J.str "system"), ("content", J.str rulesText)],
      J.obj [("role", J.str "user"), ("content", J.str promptUsed)]]),
    ("temperature", J.num "0.2"),
    ("max_completion_tokens", J.num "400"),
    ("max_tokens", J.num "400"),
    ("response_format", rf),
    ("stream", J.bool false)]

/-- The error text mined from a non-2xx first response:
`json.dumps(r.json(), ensure_ascii=False)` when the body parses, else the
raw body. -/
def errTextOf (bodyText : String) : String :=
  match jsonParse bodyText with
  | some j => pyJsonDumps j
  | none => bodyText

/-- Whether the first failure looks like a rejection of the strict schema
mode: any of the four keywords occurs in the lowercased error text. -/
def schemaRejected (bodyText : String) : Bool :=
  let l := pyLower (errTextOf bodyText)
  pyIn "json_schema" l || pyIn "response_format" l || pyIn "schema" l || pyIn "strict" l

/-- `_parse_choice_content(data)`: dig `choices[0].message.content` out of
the completion, tolerating a few variants; raises (as the Python would)
when the data is shaped so that `.get` or subscripting blows up. -/
def parseChoiceContent (data : J) : Except PyErr String :=
  match data with
  | .obj kvs =>
    match dictGet kvs "choices" with
    | none => .ok ""
    | some v =>
      if pyTruthy v then
        match v with
        | .arr (c0 :: _) =>
          let c0v := if pyTruthy c0 then c0 else J.obj []
          match c0v with
          | .obj ckvs =>
            let msgv :=
              match dictGet ckvs "message" with
              | some m => if pyTruthy m then m else J.obj []
              | none => J.obj []
            match msgv with
            | .obj mkvs =>
              match dictGet mkvs "content" with
              | some (.str s) => .ok (pyStrip s)
              | some (.obj okvs) => .ok (pyJsonDumps (.obj okvs))
              | _ =>
                match dictGet ckvs "text" with
                | some (.str s) => .ok (pyStrip s)
                | _ => .ok ""
            | _ => .error .attributeError
          | _ => .error .attributeError
        | .arr [] => .ok ""
        | .str _ => .error .attributeError
        | .obj _ => .error .keyError
        | .num _ => .error .typeError
        | .bool _ => .error .typeError
        | .null => .ok ""
      else .ok ""
  | _ => .error .attributeError

/-- The tail of `openai_compat_client.generate_contract` applied to the
final (possibly retried) response: still-failing status, non-JSON body,
then choice extraction and the shared normalization. -/
def oaiFinish (r : HttpResp) (promptUsed : String) : Except PyErr (Contract × String) :=
  if 400 ≤ r.status then
    let errS := match jsonParse r.text with | some j => pyStr j | none => r.text
    .ok (⟨"Remote LLM error " ++ toString r.status ++ ": " ++ errS, ""⟩, promptUsed)
  else
    match jsonParse r.text with
    | none =>
      .ok (⟨"Remote LLM returned non-JSON HTTP body: " ++ pyTake 200 r.text, ""⟩, promptUsed)
    | some data => do
      let content ← parseChoiceContent data
      let c ← normalizeModelOutput content
      .ok (c, promptUsed)

/-- Result of one `generate_contract` invocation on the OpenAI-compatible
client, with a trace of the payload of every POST actually attempted. -/
structure OaiOut where
  result : Except PyErr (Contract × String)
  payloads : List J

/-- Model of `openai_compat_client.generate_contract`.  `post1`/`post2`
are the outcomes the HTTP layer would give to the first and second POST
(the second is consulted only when a retry happens). -/
def oaiGenerate (apiKey modelName rulesText : String)
    (post1 post2 : Except String HttpResp) (requestObj : J) : OaiOut :=
  let promptUsed := pyJsonDumpsIndent2 requestObj
  if pyStrip apiKey = "" then
    ⟨.ok (⟨"Missing OPENAI_COMPAT_API_KEY (or GROQ_API_KEY). " ++
      "Set it in .env or env vars.", ""⟩, promptUsed), []⟩
  else
    let pl1 := oaiPayload modelName rulesText promptUsed responseFormatSchema
    match post1 with
    | .error e =>
      ⟨.ok (⟨"Remote LLM connection error: " ++ e, ""⟩, promptUsed), [pl1]⟩
    | .ok r1 =>
      if 400 ≤ r1.status then
        if schemaRejected r1.text then
          let pl2 := oaiPayload modelName rulesText promptUsed responseFormatJsonObject
          match post2 with
          | .error e =>
            ⟨.ok (⟨"Remote LLM connection error (retry): " ++ e, ""⟩, promptUsed),
              [pl1, pl2]⟩
          | .ok r2 => ⟨oaiFinish r2 promptUsed, [pl1, pl2]⟩
        else ⟨oaiFinish r1 promptUsed, [pl1]⟩
      else ⟨oaiFinish r1 promptUsed, [pl1]⟩

/-! ## Specification-side characterizations

The definitions below are not translations of the source: they restate,
in direct positional terms, what the spec and the claims say the code
does, so the theorems can compare the two. -/

/-- An event the pairing scan reacts to: role `user` or `assistant`
after stripping. -/
def sigEvent (r : EventRow) : Bool :=
  pyStrip r.role = "user" || pyStrip r.role = "assistant"

/-- The chronologically last user/assistant event of a row list. -/
def lastSig (l : List EventRow) : Option EventRow := (l.reverse).find? sigEvent

/-- The turn a user event and the assistant event answering it produce. -/
def specTurn (u a : EventRow) : Turn :=
  { timestamp := pyOr u.created_at (pyOr a.created_at ""),
    user := pyStrip u.text, assistant := pyStrip a.text }

/-- Positional characterization of turn reconstruction, carrying the
events already seen (`pre`): an assistant event yields a turn exactly
when the last user/assistant event among all earlier events is a user
event, and it pairs with that event. -/
def specTurnsAux (pre : List EventRow) : List EventRow → List Turn
  | [] => []
  | r :: rest =>
    (if pyStrip r.role = "assistant" then
      match lastSig pre with
      | some p => if pyStrip p.role = "user" then [specTurn p r] else []
      | none => []
    else []) ++ specTurnsAux (pre ++ [r]) rest

/-- Positional characterization of turn reconstruction, following the
claim: an assistant event yields a turn exactly when the chronologically
last user/assistant event before it is a user event — equivalently, its
paired user event is followed by no intervening user event and the
assistant event is the first assistant reply after it.  Overwritten
(back-to-back) user events and trailing unanswered user events yield
nothing, and events with other roles are invisible. -/
def specTurns (rows : List EventRow) : List Turn := specTurnsAux [] rows

/-- Modelled from the spec: the claimed placeholder text of C4, which
quotes it without the surrounding parentheses the code uses. -/
def claimPlaceholder : String := "no response from model"

/-- Modelled from the spec: scan for the close brace balancing an
already-seen open brace (depth `d`), returning the consumed characters. -/
def balancedTail : List Char → Nat → List Char → Option (List Char)
  | [], _, _ => none
  | c :: rest, d, acc =>
    if c = rbrace then
      (if d = 1 then some ((c :: acc).reverse) else balancedTail rest (d - 1) (c :: acc))
    else if c = lbrace then balancedTail rest (d + 1) (c :: acc)
    else balancedTail rest d (c :: acc)

/-- Modelled from the spec: the first top-level brace-balanced span, the
reading of "locating the first top-level `{...}` span" in C4. -/
def firstTopLevelSpan (l : List Char) : Option (List Char) :=
  match l.dropWhile (fun c => c ≠ lbrace) with
  | [] => none
  | c :: rest => (balancedTail rest 1 []).map (fun b => c :: b)

/-- The field fixup shared by the claim-side normalizations. -/
def claimFields (ph : String) (kvs : List (String × J)) : Except PyErr Contract := do
  let a ← pyStrField (dictGet kvs "assistant_text")
  let u ← pyStrField (dictGet kvs "updated_user_description")
  .ok ⟨pyOr a ph, u⟩

/-- Modelled from the spec: output normalization exactly as claim C4
states it — whole-string parse as a JSON object, else the first
top-level `{...}` span, else the raw text; empty assistant text becomes
the claimed (parenthesis-free) placeholder. -/
def claimStatedNormalize (text : String) : Except PyErr Contract :=
  match jsonParse (pyStrip text) with
  | some (.obj kvs) => claimFields claimPlaceholder kvs
  | _ =>
    match firstTopLevelSpan (pyStrip text).data with
    | some m =>
      match jsonParse (String.mk m) with
      | some (.obj kvs) => claimFields claimPlaceholder kvs
      | _ => .ok ⟨pyOr text claimPlaceholder, ""⟩
    | none => .ok ⟨pyOr text claimPlaceholder, ""⟩

/-- The span from the first open brace to the last close brace of the
whole string (what the greedy regex actually takes), computed directly
from those two positions rather than by a search loop. -/
def firstToLastSpan (l : List Char) : Option (List Char) :=
  match l.dropWhile (fun c => c ≠ lbrace) with
  | [] => none
  | c :: rest => (lastRBSpan rest).map (fun b => c :: b)

/-- The amended claim C4 as a definition: whole-string JSON parse first
(a non-object result short-circuits to the raw-text fallback), then the
span from the first `{` to the last `}`, then the raw text; the
placeholder is the parenthesized one the code uses, and contract fields
are read with the code's `(get or "").strip()` semantics. -/
def claimAmendedNormalize (text : String) : Except PyErr Contract :=
  let t := pyStrip text
  if t = "" then .ok ⟨pyOr text placeholderText, ""⟩
  else
    match jsonParse t with
    | some (.obj kvs) => claimFields placeholderText kvs
    | some _ => .ok ⟨pyOr text placeholderText, ""⟩
    | none =>
      match firstToLastSpan t.data with
      | some m =>
        match jsonParse (String.mk m) with
        | some (.obj kvs) => claimFields placeholderText kvs
        | _ => .ok ⟨pyOr text placeholderText, ""⟩
      | none => .ok ⟨pyOr text placeholderText, ""⟩

/-- Contiguous-substring occurrence as a proposition on character lists. -/
def CLSub (needle hay : List Char) : Prop := ∃ x y, hay = x ++ needle ++ y

/-- `appearsInOrderCL ts s`: the texts `ts` occur in `s` disjointly and
in the given order, each occurrence after the end of the previous one. -/
def appearsInOrderCL : List (List Char) → List Char → Prop
  | [], _ => True
  | t :: ts, s => ∃ x y, s = x ++ t ++ y ∧ appearsInOrderCL ts y

/-- How claim C5 renders a prior turn inside the prompt. -/
def renderTurnData (p : String × String) : List Char :=
  ("User: " ++ pyStrip p.1 ++ "\nAssistant: " ++ pyStrip p.2).data

/-! ## Generic helper facts -/

instance exceptDecEq {ε α : Type} [DecidableEq ε] [DecidableEq α] :
    DecidableEq (Except ε α) := fun x y =>
  match x, y with
  | .ok a, .ok b =>
    if h : a = b then isTrue (by rw [h]) else isFalse (by intro hh; cases hh; exact h rfl)
  | .ok _, .error _ => isFalse (by intro h; cases h)
  | .error _, .ok _ => isFalse (by intro h; cases h)
  | .error e, .error f =>
    if h : e = f then isTrue (by rw [h]) else isFalse (by intro hh; cases hh; exact h rfl)

theorem takeLastN_length {α : Type} (n : Nat) (l : List α) :
    (takeLastN n l).length = l.length - (l.length - n) := by
  simp [takeLastN]

theorem takeLastN_length_le {α : Type} (n : Nat) (l : List α) :
    (takeLastN n l).length ≤ n := by
  rw [takeLastN_length]; omega

theorem takeLastN_length_of_le {α : Type} {n : Nat} {l : List α} (h : n ≤ l.length) :
    (takeLastN n l).length = n := by
  rw [takeLastN_length]; omega

theorem takeLastN_decomp {α : Type} (n : Nat) (l : List α) :
    ∃ pre, l = pre ++ takeLastN n l :=
  ⟨l.take (l.length - n), (List.take_append_drop _ _).symm⟩

/-! ## Claim C1 (Contract Client totality)

The claim says `generate_contract` never raises.  But the normalization
`(parsed.get("assistant_text") or "").strip()` raises `AttributeError`
whenever the model's JSON object carries a truthy non-string in a
contract field — reachable with a plain HTTP 200 whose `response` field
is, e.g., the JSON text of an object mapping `assistant_text` to the
number 5.  The spec itself (section 7) requires wrong types to be
"recovered locally", so the code, not the claim, is at fault: code_bug. -/

/-- Claim C1, failing input: the ollama backend strategy, given a
successful HTTP 200 response whose body is
`{"response": "{\"assistant_text\": 5}"}` — i.e. the model answered with
a JSON object whose `assistant_text` is a number — raises
`AttributeError` instead of returning a diagnostic pair. -/
theorem c1_generate_contract_raises :
    ollamaGenerate "llama3.2:3b" "rules" []
      (.ok ⟨200, "\x7b\"response\": \"\x7b\\\"assistant_text\\\": 5\x7d\"\x7d"⟩)
      (J.obj []) = .error .attributeError := by
  rfl

/-! ## Claim C8 (policy loader memoization) -/

theorem runLoads_cached (ds : List (Except Unit String)) (t : String) :
    runLoads ds ⟨some t⟩ = (ds.map (fun _ => .ok t), 0) := by
  induction ds with
  | nil => rfl
  | cons d ds ih => simp [runLoads, loadSystemRules, ih]

/-- Claim C8: `load_system_rules` reads the policy file at most once per
process.  Starting from the fresh `lru_cache`, a first call that reads
text `c` performs exactly one file read in the whole sequence, and every
later call returns exactly the first call's result (the stripped text),
no matter what the disk would yield then. -/
theorem c8_policy_loaded_once (c : String) (rest : List (Except Unit String)) :
    runLoads (.ok c :: rest) ⟨none⟩ =
      (.ok (pyStrip c) :: rest.map (fun _ => .ok (pyStrip c)), 1) := by
  simp [runLoads, loadSystemRules, runLoads_cached]

/-! ## Claim C7 (unique external update id) -/

theorem insertMessage_step_preserves (s : MsgTable) (r : MsgRow)
    (h : UpdateIdUnique s) :
    UpdateIdUnique (match insertMessage s r with | .ok s2 => s2 | .error _ => s) := by
  unfold insertMessage
  cases hid : r.update_id with
  | none =>
    intro u
    simp only [List.countP_append, List.countP_cons, List.countP_nil]
    have : (r.update_id == some u) = false := by rw [hid]; rfl
    simp [this]
    exact h u
  | some u0 =>
    by_cases hdup : s.any (fun row => row.update_id == some u0)
    · simp [hdup]; exact h
    · have hany : s.any (fun row => row.update_id == some u0) = false :=
        Bool.eq_false_iff.mpr hdup
      simp only [hany, Bool.false_eq_true, if_false]
      intro u
      simp only [List.countP_append, List.countP_cons, List.countP_nil]
      rw [hid]
      by_cases hu : u0 = u
      · subst hu
        have hz : s.countP (fun row => row.update_id == some u0) = 0 := by
          rw [List.countP_eq_zero]
          exact List.any_eq_false.mp hany
        simp [hz]
      · have hne : (some u0 == some u) = false := by
          simp [hu]
        simp [hne]
        exact h u

/-- Claim C7: in every database state reachable by a sequence of
`insert_message` calls (failed inserts leaving the table unchanged, as
the unique index on `update_id` makes SQLite reject them), no two stored
events carry the same non-null external update id. -/
theorem c7_update_id_unique (ops : List MsgRow) : UpdateIdUnique (applyInserts ops) := by
  have H : ∀ (os : List MsgRow) (s : MsgTable), UpdateIdUnique s →
      UpdateIdUnique (os.foldl
        (fun s r => match insertMessage s r with | .ok s2 => s2 | .error _ => s) s) := by
    intro os
    induction os with
    | nil => intro s hs; exact hs
    | cons r os ih =>
      intro s hs
      exact ih _ (insertMessage_step_preserves s r hs)
  exact H ops [] (by intro u; simp)

/-! ## Claim C6 (profile lazy creation and set-then-get) -/

theorem find?_map_update (s : UserStateTable) (uid : Int) (v : String) :
    ((s.map (fun p => if p.1 == uid then (p.1, v) else p)).find?
        (fun p => p.1 == uid)) =
      (s.find? (fun p => p.1 == uid)).map (fun p => (p.1, v)) := by
  induction s with
  | nil => rfl
  | cons p rest ih =>
    simp only [List.map_cons]
    by_cases h : (p.1 == uid) = true
    · rw [if_pos h]
      rw [List.find?_cons, List.find?_cons]
      have h2 : (((p.1 : Int), v).1 == uid) = true := h
      rw [h2]
      rfl
    · rw [if_neg h]
      rw [List.find?_cons, List.find?_cons]
      have h2 : (p.1 == uid) = false := Bool.eq_false_iff.mpr h
      rw [h2]
      exact ih

theorem getUserDescription_after_update (s : UserStateTable) (uid : Int) (d : String) :
    (getUserDescription (updateUserDescription s uid d) uid).2 = pyOr d "" := by
  unfold updateUserDescription
  cases h : s.find? (fun p => p.1 == uid) with
  | none =>
    unfold getUserDescription
    simp [List.find?_append, h, List.find?_cons]
  | some q =>
    unfold getUserDescription
    rw [find?_map_update, h]
    rfl

/-- Claim C6: reading the profile of a never-seen user returns the empty
string and lazily creates the row, so an immediate second read still
returns the empty string; and for every table, user and string,
`set_profile` followed by `get_profile` returns exactly the string set. -/
theorem c6_profile_roundtrip (s : UserStateTable) (uid : Int) (d : String) :
    ((s.find? (fun p => p.1 == uid) = none) →
      (getUserDescription s uid).2 = "" ∧
      (getUserDescription (getUserDescription s uid).1 uid).2 = "") ∧
    (getUserDescription (updateUserDescription s uid d) uid).2 = d := by
  constructor
  · intro h
    constructor
    · simp [getUserDescription, h]
    · simp only [getUserDescription, h]
      simp [List.find?_append, h]
  · rw [getUserDescription_after_update]
    unfold pyOr
    by_cases hd : d = "" <;> simp [hd]

/-- Witness for C6 at a concrete fresh table. -/
theorem c6_profile_roundtrip_witness :
    (getUserDescription ([] : UserStateTable) 1).2 = "" ∧
    (getUserDescription (getUserDescription ([] : UserStateTable) 1).1 1).2 = "" ∧
    (getUserDescription (updateUserDescription ([] : UserStateTable) 1 "likes cats") 1).2 =
      "likes cats" :=
  ⟨((c6_profile_roundtrip [] 1 "likes cats").1 rfl).1,
   ((c6_profile_roundtrip [] 1 "likes cats").1 rfl).2,
   (c6_profile_roundtrip [] 1 "likes cats").2⟩

/-! ## Claim C9 (strict-schema first, one keyed retry) -/

/-- Claim C9: per invocation the OpenAI-compatible strategy makes at most
two backend calls; the first POST (when the API key is present) always
carries the strict `json_schema` response format with exactly the two
required string fields, and a second POST — with the looser
`json_object` mode — happens exactly when the first POST came back with
status ≥ 400 and error text mentioning one of the keywords
`json_schema`, `response_format`, `schema`, `strict`. -/
theorem c9_schema_retry_policy (apiKey modelName rulesText : String)
    (post1 post2 : Except String HttpResp) (requestObj : J) :
    ((oaiGenerate apiKey modelName rulesText post1 post2 requestObj).payloads =
      if pyStrip apiKey = "" then []
      else
        match post1 with
        | .error _ =>
          [oaiPayload modelName rulesText (pyJsonDumpsIndent2 requestObj)
            responseFormatSchema]
        | .ok r =>
          if 400 ≤ r.status ∧ schemaRejected r.text = true then
            [oaiPayload modelName rulesText (pyJsonDumpsIndent2 requestObj)
              responseFormatSchema,
             oaiPayload modelName rulesText (pyJsonDumpsIndent2 requestObj)
              responseFormatJsonObject]
          else
            [oaiPayload modelName rulesText (pyJsonDumpsIndent2 requestObj)
              responseFormatSchema]) ∧
    (oaiGenerate apiKey modelName rulesText post1 post2 requestObj).payloads.length ≤ 2 := by
  unfold oaiGenerate
  by_cases hk : pyStrip apiKey = ""
  · simp [hk]
  · cases post1 with
    | error e => simp [hk]
    | ok r =>
      by_cases hs : 400 ≤ r.status
      · by_cases hr : schemaRejected r.text = true
        · cases post2 with
          | error e => simp [hk, hs, hr]
          | ok r2 => simp [hk, hs, hr]
        · have hr2 : schemaRejected r.text = false := Bool.eq_false_iff.mpr hr
          simp [hk, hs, hr2]
      · simp [hk, hs]

/-! ## Claim C10 (prompt length cap) -/

set_option maxHeartbeats 1000000 in
/-- Claim C10, amended: for a positive `max_chars` the built prompt never
exceeds `max_chars` characters; it is a suffix of the assembled prompt —
the beginning is what truncation removes; and when the assembled prompt
exceeds the bound, exactly the final `max_chars` characters are kept
(the result's length equals `max_chars`).  (The claim as stated
quantifies over every `max_chars`; it fails at `max_chars = 0`, where
Python's `prompt[-0:]` keeps the whole prompt.) -/
theorem c10_prompt_capped (chat : ChatContext) (user_text core_behavior : String)
    (memory : List MemoryItem) (history : List (String × String)) (max_chars : Nat)
    (h : 1 ≤ max_chars) :
    (buildPrompt chat user_text core_behavior memory history max_chars).length ≤ max_chars ∧
    (∃ pre : List Char,
      (assembledPrompt chat user_text core_behavior memory history).data =
        pre ++ (buildPrompt chat user_text core_behavior memory history max_chars).data) ∧
    (max_chars < (assembledPrompt chat user_text core_behavior memory history).length →
      (buildPrompt chat user_text core_behavior memory history max_chars).length =
        max_chars) := by
  unfold buildPrompt
  by_cases hlen :
      max_chars < (assembledPrompt chat user_text core_behavior memory history).length
  · rw [if_pos hlen]
    unfold pySliceLast
    rw [if_neg (by omega)]
    refine ⟨?_, ?_, ?_⟩
    · show (takeLastN max_chars _).length ≤ max_chars
      exact takeLastN_length_le _ _
    · exact takeLastN_decomp _ _
    · intro _
      show (takeLastN max_chars
        (assembledPrompt chat user_text core_behavior memory history).data).length = max_chars
      refine takeLastN_length_of_le ?_
      have heta : String.mk
            (assembledPrompt chat user_text core_behavior memory history).data =
          assembledPrompt chat user_text core_behavior memory history := rfl
      have hdl := String.length_mk
        (assembledPrompt chat user_text core_behavior memory history).data
      rw [heta] at hdl
      omega
  · rw [if_neg hlen]
    exact ⟨Nat.not_lt.mp hlen, ⟨[], rfl⟩, fun hc => absurd hc hlen⟩

/-- Witness for C10 at concrete inputs (the assembled prompt there is
longer than 40 characters, so the truncation branch is the live one). -/
theorem c10_prompt_capped_witness :
    (buildPrompt ⟨"1", "private", "Ann", none, none⟩ "hello" "" [] [] 40).length ≤ 40 ∧
    (∃ pre : List Char,
      (assembledPrompt ⟨"1", "private", "Ann", none, none⟩ "hello" "" [] []).data =
        pre ++ (buildPrompt ⟨"1", "private", "Ann", none, none⟩ "hello" "" [] [] 40).data) ∧
    (40 < (assembledPrompt ⟨"1", "private", "Ann", none, none⟩ "hello" "" [] []).length →
      (buildPrompt ⟨"1", "private", "Ann", none, none⟩ "hello" "" [] [] 40).length = 40) :=
  c10_prompt_capped ⟨"1", "private", "Ann", none, none⟩ "hello" "" [] [] 40 (by decide)

/-- Counterexample to C10 as stated: with `max_chars = 0` the Python
slice `prompt[-0:]` is the whole prompt, so the bound fails (the prompt
always contains at least the chat-context and new-message sections). -/
theorem c10_counterexample :
    ¬ ((buildPrompt ⟨"1", "private", "Ann", none, none⟩ "x" "" [] [] 0).length ≤ 0) := by
  decide

/-! ## Claim C3 (turn limit and window) -/

/-- Claim C3, amended: for a positive requested limit `N`,
`fetch_recent_events` returns at most `N` turns, the result is a suffix
(hence the most recent part, in oldest-first order) of the scan of the
window of the last `max(20, 4N)` events, and when that scan yields more
than `N` turns exactly `N` are returned.  (As stated the claim also
covers `N = 0`, where Python's `turns[-0:]` returns every scanned turn.) -/
theorem c3_limit_respected (events : List EventRow) (N : Nat) (h : 1 ≤ N) :
    (fetchRecentEvents events N).length ≤ N ∧
    fetchRecentEvents events N <:+
      reconstructTurns (takeLastN (max 20 (N * 4)) events) ∧
    (N < (reconstructTurns (takeLastN (max 20 (N * 4)) events)).length →
      (fetchRecentEvents events N).length = N) := by
  unfold fetchRecentEvents
  by_cases hgt : N < (reconstructTurns (takeLastN (max 20 (N * 4)) events)).length
  · rw [if_pos hgt, if_neg (by omega)]
    refine ⟨takeLastN_length_le _ _, ?_, ?_⟩
    · exact List.drop_suffix _ _
    · intro _
      exact takeLastN_length_of_le (Nat.le_of_lt hgt)
  · rw [if_neg hgt]
    exact ⟨Nat.not_lt.mp hgt, List.suffix_refl _, fun hc => absurd hc hgt⟩

/-- Witness for C3 at a concrete event list and limit 1. -/
theorem c3_limit_respected_witness :
    (fetchRecentEvents
        [⟨"user", "a", "t1", none⟩, ⟨"assistant", "b", "t2", none⟩,
         ⟨"user", "c", "t3", none⟩, ⟨"assistant", "d", "t4", none⟩] 1).length ≤ 1 ∧
    fetchRecentEvents
        [⟨"user", "a", "t1", none⟩, ⟨"assistant", "b", "t2", none⟩,
         ⟨"user", "c", "t3", none⟩, ⟨"assistant", "d", "t4", none⟩] 1 <:+
      reconstructTurns (takeLastN (max 20 (1 * 4))
        [⟨"user", "a", "t1", none⟩, ⟨"assistant", "b", "t2", none⟩,
         ⟨"user", "c", "t3", none⟩, ⟨"assistant", "d", "t4", none⟩]) ∧
    (1 < (reconstructTurns (takeLastN (max 20 (1 * 4))
        [⟨"user", "a", "t1", none⟩, ⟨"assistant", "b", "t2", none⟩,
         ⟨"user", "c", "t3", none⟩, ⟨"assistant", "d", "t4", none⟩])).length →
      (fetchRecentEvents
        [⟨"user", "a", "t1", none⟩, ⟨"assistant", "b", "t2", none⟩,
         ⟨"user", "c", "t3", none⟩, ⟨"assistant", "d", "t4", none⟩] 1).length = 1) :=
  c3_limit_respected _ 1 (by decide)

/-- Counterexample to C3 as stated: at requested limit `0` the Python
slice `turns[-0:]` keeps every reconstructed turn, so more than `0`
turns come back. -/
theorem c3_counterexample :
    ¬ ((fetchRecentEvents
        [⟨"user", "hi", "t1", none⟩, ⟨"assistant", "yo", "t2", none⟩] 0).length ≤ 0) := by
  decide

/-! ## Claim C4 (JSON extraction and normalization) -/

theorem lastRBSpan_none_iff (l : List Char) :
    lastRBSpan l = none ↔ ∀ c ∈ l, c ≠ rbrace := by
  unfold lastRBSpan
  by_cases h : ((l.reverse).dropWhile (fun c => decide (c ≠ rbrace))).isEmpty
  · rw [if_pos h]
    constructor
    · intro _ c hc
      have h2 := List.dropWhile_eq_nil_iff.mp (List.isEmpty_iff.mp h)
      have := h2 c (List.mem_reverse.mpr hc)
      simpa using this
    · intro _; rfl
  · rw [if_neg h]
    constructor
    · intro hcontra; cases hcontra
    · intro hall
      exfalso
      apply h
      rw [List.isEmpty_iff, List.dropWhile_eq_nil_iff]
      intro x hx
      simpa using hall x (List.mem_reverse.mp hx)

theorem braceMatchAt_cons (c : Char) (rest : List Char) :
    braceMatchAt (c :: rest) =
      if c = lbrace then (lastRBSpan rest).map (fun b => c :: b) else none := rfl

theorem reSearchBrace_cons (c : Char) (rest : List Char) :
    reSearchBrace (c :: rest) =
      match braceMatchAt (c :: rest) with
      | some m => some m
      | none => reSearchBrace rest := rfl

theorem reSearchBrace_none_of_noRB :
    ∀ l : List Char, (∀ c ∈ l, c ≠ rbrace) → reSearchBrace l = none
  | [], _ => rfl
  | c :: rest, h => by
    have hrest : ∀ x ∈ rest, x ≠ rbrace := fun x hx => h x (List.mem_cons_of_mem _ hx)
    have hr : lastRBSpan rest = none := (lastRBSpan_none_iff rest).mpr hrest
    rw [reSearchBrace_cons, braceMatchAt_cons, hr]
    by_cases hc : c = lbrace
    · rw [if_pos hc]
      exact reSearchBrace_none_of_noRB rest hrest
    · rw [if_neg hc]
      exact reSearchBrace_none_of_noRB rest hrest

theorem firstToLastSpan_cons_of_ne (c : Char) (rest : List Char) (hc : c ≠ lbrace) :
    firstToLastSpan (c :: rest) = firstToLastSpan rest := by
  unfold firstToLastSpan
  rw [List.dropWhile_cons]
  simp [hc]

theorem firstToLastSpan_cons_lbrace (rest : List Char) :
    firstToLastSpan (lbrace :: rest) = (lastRBSpan rest).map (fun b => lbrace :: b) := by
  unfold firstToLastSpan
  rw [List.dropWhile_cons]
  simp

theorem reSearchBrace_eq_firstToLastSpan :
    ∀ l : List Char, reSearchBrace l = firstToLastSpan l
  | [] => rfl
  | c :: rest => by
    by_cases hc : c = lbrace
    · subst hc
      rw [reSearchBrace_cons, braceMatchAt_cons, if_pos rfl, firstToLastSpan_cons_lbrace]
      cases hm : lastRBSpan rest with
      | some m => rfl
      | none =>
        have hrest := (lastRBSpan_none_iff rest).mp hm
        simp [reSearchBrace_none_of_noRB rest hrest]
    · rw [firstToLastSpan_cons_of_ne c rest hc, reSearchBrace_cons, braceMatchAt_cons,
        if_neg hc]
      exact reSearchBrace_eq_firstToLastSpan rest

/-- Claim C4, amended: the shared normalization first parses the whole
(stripped) string as JSON — a result that is valid JSON but not an
object short-circuits to the raw-text fallback; only when the whole
string fails to parse does it try the span from the first `{` to the
**last** `}` of the string (the greedy regex `\x7b.*\x7d`), not the first
top-level balanced span the claim describes; if nothing yields an
object, the raw text becomes `assistant_text`; field values are read via
`(get or "").strip()` and an empty assistant text becomes the
parenthesized placeholder `"(no response from model)"`. -/
theorem c4_normalization_amended (s : String) :
    normalizeModelOutput s = claimAmendedNormalize s := by
  by_cases h0 : pyStrip s = ""
  · simp [normalizeModelOutput, claimAmendedNormalize, extractJsonObject, jObjFields, h0]
  · cases hp : jsonParse (pyStrip s) with
    | some v =>
      cases v <;>
        simp [normalizeModelOutput, claimAmendedNormalize, extractJsonObject, jObjFields,
          claimFields, h0, hp]
    | none =>
      cases hm : firstToLastSpan (pyStrip s).data with
      | none =>
        simp [normalizeModelOutput, claimAmendedNormalize, extractJsonObject, jObjFields,
          h0, hp, reSearchBrace_eq_firstToLastSpan, hm]
      | some m =>
        cases hq : jsonParse (String.mk m) with
        | some v2 =>
          cases v2 <;>
            simp [normalizeModelOutput, claimAmendedNormalize, extractJsonObject, jObjFields,
              claimFields, h0, hp, reSearchBrace_eq_firstToLastSpan, hm, hq]
        | none =>
          simp [normalizeModelOutput, claimAmendedNormalize, extractJsonObject, jObjFields,
            h0, hp, reSearchBrace_eq_firstToLastSpan, hm, hq]

/-! ## Claim C2 (turn reconstruction pairing) -/

/-- What the scan's pending slot holds after the events `pre`: the
stripped text and timestamp of the last user/assistant event, when that
event is a user event. -/
def pendView : Option EventRow → Option (String × String)
  | some r => if pyStrip r.role = "user" then some (pyStrip r.text, r.created_at) else none
  | none => none

theorem lastSig_append_one (pre : List EventRow) (r : EventRow) :
    lastSig (pre ++ [r]) = if sigEvent r then some r else lastSig pre := by
  unfold lastSig
  rw [List.reverse_append]
  simp only [List.reverse_cons, List.reverse_nil, List.nil_append, List.singleton_append]
  rw [List.find?_cons]
  cases h : sigEvent r <;> simp [h]

theorem reconstructGo_eq_specAux :
    ∀ (rows pre : List EventRow),
      reconstructGo rows (pendView (lastSig pre)) = specTurnsAux pre rows
  | [], _ => rfl
  | r :: rest, pre => by
    have hnext := reconstructGo_eq_specAux rest (pre ++ [r])
    rw [lastSig_append_one] at hnext
    show (let role := pyStrip r.role
          let text := pyStrip r.text
          if role = "user" then reconstructGo rest (some (text, r.created_at))
          else if role = "assistant" then
            match pendView (lastSig pre) with
            | none => reconstructGo rest none
            | some pu =>
              { timestamp := pyOr pu.2 (pyOr r.created_at ""),
                user := pu.1, assistant := text } :: reconstructGo rest none
          else reconstructGo rest (pendView (lastSig pre))) =
      specTurnsAux pre (r :: rest)
    show (if pyStrip r.role = "user" then
            reconstructGo rest (some (pyStrip r.text, r.created_at))
          else if pyStrip r.role = "assistant" then
            match pendView (lastSig pre) with
            | none => reconstructGo rest none
            | some pu =>
              { timestamp := pyOr pu.2 (pyOr r.created_at ""),
                user := pu.1, assistant := pyStrip r.text } :: reconstructGo rest none
          else reconstructGo rest (pendView (lastSig pre))) =
      specTurnsAux pre (r :: rest)
    unfold specTurnsAux
    by_cases hu : pyStrip r.role = "user"
    · have hs : sigEvent r = true := by simp [sigEvent, hu]
      have hna : ¬ (pyStrip r.role = "assistant") := by rw [hu]; decide
      rw [hs] at hnext
      rw [if_pos rfl] at hnext
      have hpv : pendView (some r) = some (pyStrip r.text, r.created_at) := by
        show (if pyStrip r.role = "user" then some (pyStrip r.text, r.created_at)
          else none) = _
        rw [if_pos hu]
      rw [hpv] at hnext
      rw [if_pos hu, if_neg hna, List.nil_append]
      exact hnext
    · by_cases ha : pyStrip r.role = "assistant"
      · have hs : sigEvent r = true := by simp [sigEvent, ha]
        rw [hs] at hnext
        rw [if_pos rfl] at hnext
        have hpv : pendView (some r) = none := by
          show (if pyStrip r.role = "user" then some (pyStrip r.text, r.created_at)
            else none) = _
          rw [if_neg hu]
        rw [hpv] at hnext
        rw [if_neg hu, if_pos ha, if_pos ha]
        cases hp : lastSig pre with
        | none =>
          show reconstructGo rest none = [] ++ specTurnsAux (pre ++ [r]) rest
          rw [List.nil_append]
          exact hnext
        | some p =>
          by_cases hpu : pyStrip p.role = "user"
          · have hpv2 : pendView (some p) = some (pyStrip p.text, p.created_at) := by
              show (if pyStrip p.role = "user" then some (pyStrip p.text, p.created_at)
                else none) = _
              rw [if_pos hpu]
            rw [hpv2]
            show ({ timestamp := pyOr p.created_at (pyOr r.created_at ""),
                    user := pyStrip p.text, assistant := pyStrip r.text } : Turn) ::
                reconstructGo rest none =
              (if pyStrip p.role = "user" then [specTurn p r] else []) ++
                specTurnsAux (pre ++ [r]) rest
            rw [if_pos hpu, hnext]
            rfl
          · have hpv2 : pendView (some p) = none := by
              show (if pyStrip p.role = "user" then some (pyStrip p.text, p.created_at)
                else none) = _
              rw [if_neg hpu]
            rw [hpv2]
            show reconstructGo rest none =
              (if pyStrip p.role = "user" then [specTurn p r] else []) ++
                specTurnsAux (pre ++ [r]) rest
            rw [if_neg hpu, List.nil_append]
            exact hnext
      · have hs : sigEvent r = false := by
          simp [sigEvent, hu, ha]
        rw [hs] at hnext
        rw [if_neg (by decide : ¬ ((false : Bool) = true))] at hnext
        rw [if_neg hu, if_neg ha, if_neg ha, List.nil_append]
        exact hnext

/-- Claim C2: the stateful pairing scan of `fetch_recent_events` computes
exactly the positional specification `specTurns`: every emitted Turn
pairs a user event with the next assistant event after it with no
intervening user (or assistant) event; a user event overwritten by a
later user event before any assistant reply is never paired; a trailing
unanswered user event yields no Turn; events with other roles are
ignored. -/
theorem c2_turn_reconstruction (rows : List EventRow) :
    reconstructTurns rows = specTurns rows :=
  reconstructGo_eq_specAux rows []

/-! ## Claim C5 (request builder) — substring and ordering machinery -/

theorem startsWithCL_iff : ∀ (n h : List Char), startsWithCL n h = true ↔ ∃ y, h = n ++ y
  | [], h => by simp [startsWithCL]
  | a :: as, [] => by
    simp [startsWithCL]
  | a :: as, b :: bs => by
    simp only [startsWithCL, Bool.and_eq_true, decide_eq_true_eq]
    constructor
    · rintro ⟨hab, h2⟩
      obtain ⟨y, hy⟩ := (startsWithCL_iff as bs).mp h2
      subst hab
      exact ⟨y, by rw [hy]; rfl⟩
    · rintro ⟨y, hy⟩
      injection hy with h1 h2
      exact ⟨h1.symm, (startsWithCL_iff as bs).mpr ⟨y, h2⟩⟩

theorem subListCL_iff : ∀ (n h : List Char), subListCL n h = true ↔ CLSub n h
  | n, [] => by
    rw [show subListCL n [] = startsWithCL n [] from rfl, startsWithCL_iff]
    constructor
    · rintro ⟨y, hy⟩
      exact ⟨[], y, by simpa using hy⟩
    · rintro ⟨x, y, hxy⟩
      have h3 : x = [] ∧ n = [] ∧ y = [] := by simpa using hxy
      exact ⟨y, by simp [h3.2.1, h3.2.2]⟩
  | n, c :: t => by
    rw [show subListCL n (c :: t) = (startsWithCL n (c :: t) || subListCL n t) from rfl]
    rw [Bool.or_eq_true, startsWithCL_iff, subListCL_iff n t]
    constructor
    · rintro (⟨y, hy⟩ | ⟨x, y, hxy⟩)
      · exact ⟨[], y, by simpa using hy⟩
      · exact ⟨c :: x, y, by simp [hxy]⟩
    · rintro ⟨x, y, hxy⟩
      cases x with
      | nil => exact Or.inl ⟨y, by simpa using hxy⟩
      | cons d xs =>
        right
        injection hxy with h1 h2
        exact ⟨xs, y, h2⟩

theorem CLSub_mono_left (n x h : List Char) (hs : CLSub n h) : CLSub n (x ++ h) := by
  obtain ⟨a, b, hab⟩ := hs
  exact ⟨x ++ a, b, by rw [hab]; simp⟩

theorem CLSub_mono_right (n h z : List Char) (hs : CLSub n h) : CLSub n (h ++ z) := by
  obtain ⟨a, b, hab⟩ := hs
  exact ⟨a, b ++ z, by rw [hab]; simp⟩

theorem CLSub_trans (a b c : List Char) (h1 : CLSub a b) (h2 : CLSub b c) : CLSub a c := by
  obtain ⟨x, y, hxy⟩ := h1
  obtain ⟨u, v, huv⟩ := h2
  exact ⟨u ++ x, y ++ v, by rw [huv, hxy]; simp⟩

theorem appearsInOrderCL_mono_left (ts : List (List Char)) (x y : List Char)
    (h : appearsInOrderCL ts y) : appearsInOrderCL ts (x ++ y) := by
  cases ts with
  | nil => trivial
  | cons t ts =>
    obtain ⟨a, b, hy, hrec⟩ := h
    exact ⟨x ++ a, b, by rw [hy]; simp, hrec⟩

theorem appearsInOrderCL_ext_right :
    ∀ (ts : List (List Char)) (s z : List Char),
      appearsInOrderCL ts s → appearsInOrderCL ts (s ++ z)
  | [], _, _, _ => trivial
  | t :: ts, s, z, h => by
    obtain ⟨a, b, hs, hrec⟩ := h
    exact ⟨a, b ++ z, by rw [hs]; simp, appearsInOrderCL_ext_right ts b z hrec⟩

theorem appearsInOrderCL_append :
    ∀ (as bs : List (List Char)) (s1 s2 : List Char),
      appearsInOrderCL as s1 → appearsInOrderCL bs s2 →
      appearsInOrderCL (as ++ bs) (s1 ++ s2)
  | [], bs, s1, s2, _, hb => by
    rw [List.nil_append]
    exact appearsInOrderCL_mono_left bs s1 s2 hb
  | a :: as, bs, s1, s2, ha, hb => by
    obtain ⟨x, y, hs1, hrec⟩ := ha
    exact ⟨x, y ++ s2, by rw [hs1]; simp,
      appearsInOrderCL_append as bs y s2 hrec hb⟩

theorem joinSep_cons_ne (sep x : String) (rest : List String) (h : rest ≠ []) :
    joinSep sep (x :: rest) = x ++ sep ++ joinSep sep rest := by
  cases rest with
  | nil => exact absurd rfl h
  | cons y ys => rfl

theorem appearsInOrderCL_joinSep (sep : String) :
    ∀ ls : List String, appearsInOrderCL (ls.map String.data) (joinSep sep ls).data
  | [] => trivial
  | [x] => ⟨[], [], by simp [joinSep], trivial⟩
  | x :: y :: ys => by
    rw [joinSep_cons_ne sep x (y :: ys) (by simp)]
    refine ⟨[], (sep ++ joinSep sep (y :: ys)).data, ?_, ?_⟩
    · show (x ++ sep ++ joinSep sep (y :: ys)).data =
        [] ++ x.data ++ (sep ++ joinSep sep (y :: ys)).data
      simp [String.data_append]
    · rw [String.data_append]
      exact appearsInOrderCL_mono_left _ sep.data _
        (appearsInOrderCL_joinSep sep (y :: ys))

theorem joinSep_ends_list (sep : String) :
    ∀ (ss ts : List String), ts ≠ [] →
      ∃ pre : List Char, (joinSep sep (ss ++ ts)).data = pre ++ (joinSep sep ts).data
  | [], _, _ => ⟨[], rfl⟩
  | x :: ss, ts, hts => by
    rw [List.cons_append, joinSep_cons_ne sep x (ss ++ ts)
      (by intro hcon; rcases List.append_eq_nil.mp hcon with ⟨-, h2⟩; exact hts h2)]
    obtain ⟨pre, hp⟩ := joinSep_ends_list sep ss ts hts
    refine ⟨(x ++ sep).data ++ pre, ?_⟩
    rw [show x ++ sep ++ joinSep sep (ss ++ ts) = (x ++ sep) ++ joinSep sep (ss ++ ts) from rfl]
    rw [String.data_append, hp, List.append_assoc]

theorem headD_append (s t : String) (c : Char) (h : s.data.head? = some c) :
    (s ++ t).data.head? = some c := by
  rw [String.data_append]
  cases hs : s.data with
  | nil => rw [hs] at h; cases h
  | cons a l => rw [hs] at h; simpa using h

theorem getLastD_append (pre l : List Char) (c : Char) (h : l.getLast? = some c) :
    (pre ++ l).getLast? = some c := by
  rw [← List.head?_reverse, List.reverse_append]
  rw [← List.head?_reverse] at h
  cases hl : l.reverse with
  | nil => rw [hl] at h; cases h
  | cons a t2 => rw [hl] at h; simpa using h

theorem joinSep_head (sep x : String) (ss : List String) (c : Char)
    (h : x.data.head? = some c) : (joinSep sep (x :: ss)).data.head? = some c := by
  cases ss with
  | nil => exact h
  | cons y ys =>
    rw [joinSep_cons_ne sep x (y :: ys) (by simp)]
    exact headD_append _ _ _ (headD_append x sep c h)

theorem CLSub_joinSep_of_mem (sep : String) :
    ∀ (ls : List String) (x : String), x ∈ ls → CLSub x.data (joinSep sep ls).data
  | [], x, hx => absurd hx (by simp)
  | y :: ys, x, hx => by
    rcases List.mem_cons.mp hx with h1 | h2
    · subst h1
      cases ys with
      | nil => exact ⟨[], [], by simp [joinSep]⟩
      | cons z zs =>
        rw [joinSep_cons_ne sep x (z :: zs) (by simp)]
        rw [show x ++ sep ++ joinSep sep (z :: zs) = x ++ (sep ++ joinSep sep (z :: zs)) from
          by rw [String.append_assoc]]
        rw [String.data_append]
        exact CLSub_mono_right _ _ _ ⟨[], [], by simp⟩
    · have hys : ys ≠ [] := by intro hcon; rw [hcon] at h2; cases h2
      rw [joinSep_cons_ne sep y ys hys]
      rw [show y ++ sep ++ joinSep sep ys = (y ++ sep) ++ joinSep sep ys from rfl]
      rw [String.data_append]
      exact CLSub_mono_left _ _ _ (CLSub_joinSep_of_mem sep ys x h2)

theorem dropWhile_eq_self_of_head (p : Char → Bool) (l : List Char) (c : Char)
    (hhead : l.head? = some c) (hc : p c = false) : l.dropWhile p = l := by
  cases l with
  | nil => cases hhead
  | cons a t =>
    have ha : a = c := by simpa using hhead
    subst ha
    rw [List.dropWhile_cons, hc]
    simp

theorem pyStripCL_eq_self (l : List Char) (c d : Char)
    (hhead : l.head? = some c) (hc : isPySpace c = false)
    (hlast : l.getLast? = some d) (hd : isPySpace d = false) : pyStripCL l = l := by
  unfold pyStripCL
  rw [dropWhile_eq_self_of_head _ l c hhead hc]
  rw [dropWhile_eq_self_of_head _ l.reverse d (by rw [List.head?_reverse]; exact hlast) hd]
  exact List.reverse_reverse l

theorem newMessageSection_last (ut : String) :
    (newMessageSection ut).data.getLast? = some ':' := by
  unfold newMessageSection
  rw [show "### NEW MESSAGE\nUser: " ++ pyStrip ut ++ "\nAssistant:" =
    ("### NEW MESSAGE\nUser: " ++ pyStrip ut) ++ "\nAssistant:" from rfl]
  rw [String.data_append]
  exact getLastD_append _ _ _ (by decide)

theorem chatContextSection_head (chat : ChatContext) :
    (chatContextSection chat).data.head? = some '#' := by
  unfold chatContextSection
  exact headD_append _ _ _ (headD_append _ _ _ (headD_append _ _ _ (headD_append _ _ _
    (headD_append _ _ _ (headD_append _ _ _ (headD_append _ _ _
      (headD_append _ _ _ (by decide))))))))

theorem promptSections_head (chat : ChatContext) (ut cb : String)
    (memory : List MemoryItem) (history : List (String × String)) :
    (joinSep "\n\n" (promptSections chat ut cb memory history)).data.head? = some '#' := by
  unfold promptSections promptFront
  by_cases hcb : pyStrip cb = ""
  · rw [if_pos hcb, List.nil_append, List.cons_append]
    exact joinSep_head _ _ _ _ (chatContextSection_head chat)
  · rw [if_neg hcb, List.singleton_append, List.cons_append]
    exact joinSep_head _ _ _ _ (headD_append _ _ _ (by decide))

theorem assembledPrompt_eq_join (chat : ChatContext) (ut cb : String)
    (memory : List MemoryItem) (history : List (String × String)) :
    assembledPrompt chat ut cb memory history =
      joinSep "\n\n" (promptSections chat ut cb memory history) := by
  unfold assembledPrompt pyStrip
  obtain ⟨pre, hp⟩ := joinSep_ends_list "\n\n"
    (promptFront chat cb memory history) [newMessageSection ut] (by simp)
  have hlast : (joinSep "\n\n" (promptSections chat ut cb memory history)).data.getLast? =
      some ':' := by
    unfold promptSections
    rw [hp]
    exact getLastD_append _ _ _ (newMessageSection_last ut)
  rw [pyStripCL_eq_self _ '#' ':' (promptSections_head chat ut cb memory history)
    (by decide) hlast (by decide)]

/-- The string a kept history pair renders to inside the prompt. -/
def histRender (p : String × String) : String :=
  "User: " ++ pyStrip p.1 ++ "\nAssistant: " ++ pyStrip p.2

theorem filterMap_historyLine_eq_map :
    ∀ (hist : List (String × String)),
      (∀ p ∈ hist, pyStrip p.1 ≠ "" ∧ pyStrip p.2 ≠ "") →
      hist.filterMap historyLine = hist.map histRender
  | [], _ => rfl
  | p :: rest, H => by
    rw [List.filterMap_cons, List.map_cons]
    have h := H p (by simp)
    have hline : historyLine p = some (histRender p) := by
      show (if pyStrip p.1 = "" ∨ pyStrip p.2 = "" then none
        else some ("User: " ++ pyStrip p.1 ++ "\nAssistant: " ++ pyStrip p.2)) = _
      rw [if_neg (not_or.mpr ⟨h.1, h.2⟩)]
      rfl
    rw [hline, filterMap_historyLine_eq_map rest (fun q hq => H q (by simp [hq]))]

/-- Claim C5, amended: whenever every prior turn has non-empty user and
assistant texts after trimming and the assembled prompt fits in
`max_chars`, the built prompt contains every prior turn (rendered with
trimmed texts) in order, followed by the new-message section carrying
the trimmed new message; and every memory item whose content is
non-empty after trimming appears (trimmed) in the prompt.  (As stated
the claim fails: a turn with an empty side is silently dropped, and the
profile/memory text appears trimmed, not verbatim.) -/
theorem c5_prompt_contains (chat : ChatContext) (ut cb : String)
    (memory : List MemoryItem) (history : List (String × String)) (max_chars : Nat)
    (H1 : ∀ p ∈ history, pyStrip p.1 ≠ "" ∧ pyStrip p.2 ≠ "")
    (H2 : (assembledPrompt chat ut cb memory history).length ≤ max_chars) :
    appearsInOrderCL (history.map renderTurnData ++ [(newMessageSection ut).data])
      (buildPrompt chat ut cb memory history max_chars).data ∧
    (∀ m ∈ memory, pyStrip m.content ≠ "" →
      CLSub (pyStrip m.content).data
        (buildPrompt chat ut cb memory history max_chars).data) := by
  have hbp : buildPrompt chat ut cb memory history max_chars =
      assembledPrompt chat ut cb memory history := by
    unfold buildPrompt
    rw [if_neg (Nat.not_lt.mpr H2)]
  rw [hbp, assembledPrompt_eq_join]
  constructor
  · cases history with
    | nil =>
      obtain ⟨pre, hp⟩ := joinSep_ends_list "\n\n"
        (promptFront chat cb memory []) [newMessageSection ut] (by simp)
      show appearsInOrderCL ([].map renderTurnData ++ [(newMessageSection ut).data])
        (joinSep "\n\n" (promptFront chat cb memory [] ++ [newMessageSection ut])).data
      rw [List.map_nil, List.nil_append, hp]
      exact ⟨pre, [], by simp [joinSep], trivial⟩
    | cons p t =>
      have H1' : ∀ q ∈ p :: t, pyStrip q.1 ≠ "" ∧ pyStrip q.2 ≠ "" := H1
      have hmap := filterMap_historyLine_eq_map (p :: t) H1'
      have hps : promptSections chat ut cb memory (p :: t) =
          ((if pyStrip cb = "" then [] else ["### CORE BEHAVIOR\n" ++ pyStrip cb]) ++
            [chatContextSection chat] ++
            (match memory.filterMap memoryLine with
             | [] => []
             | l :: ls => ["### MEMORY\n" ++ joinSep "\n" (l :: ls)])) ++
          ["### CONVERSATION SO FAR\n" ++
              joinSep "\n\n" (histRender p :: t.map histRender),
            newMessageSection ut] := by
        unfold promptSections promptFront
        rw [hmap, List.map_cons]
        simp [List.append_assoc]
      rw [hps]
      obtain ⟨pre, hp⟩ := joinSep_ends_list "\n\n" _
        ["### CONVERSATION SO FAR\n" ++
            joinSep "\n\n" (histRender p :: t.map histRender),
          newMessageSection ut] (by simp)
      rw [hp]
      apply appearsInOrderCL_mono_left
      have hdata : (joinSep "\n\n"
          ["### CONVERSATION SO FAR\n" ++
              joinSep "\n\n" (histRender p :: t.map histRender),
            newMessageSection ut]).data =
          ("### CONVERSATION SO FAR\n".data ++
            (joinSep "\n\n" (histRender p :: t.map histRender)).data ++
            "\n\n".data) ++ (newMessageSection ut).data := by
        show (("### CONVERSATION SO FAR\n" ++
            joinSep "\n\n" (histRender p :: t.map histRender)) ++ "\n\n" ++
            newMessageSection ut).data = _
        simp [String.data_append, List.append_assoc]
      rw [hdata]
      have hrend : (p :: t).map renderTurnData =
          ((p :: t).map histRender).map String.data := by
        rw [List.map_map]
        rfl
      rw [hrend]
      apply appearsInOrderCL_append
      · rw [List.append_assoc]
        apply appearsInOrderCL_mono_left
        apply appearsInOrderCL_ext_right
        rw [show (p :: t).map histRender = histRender p :: t.map histRender from rfl]
        exact appearsInOrderCL_joinSep "\n\n" (histRender p :: t.map histRender)
      · exact ⟨[], [], by simp, trivial⟩
  · intro m hm hmc
    have hline : memoryLine m = some ("- [" ++ m.kind ++ "] " ++ pyStrip m.content) := by
      show (if pyStrip m.content = "" then none
        else some ("- [" ++ m.kind ++ "] " ++ pyStrip m.content)) = _
      rw [if_neg hmc]
    have hmem : ("- [" ++ m.kind ++ "] " ++ pyStrip m.content) ∈
        memory.filterMap memoryLine :=
      List.mem_filterMap.mpr ⟨m, hm, hline⟩
    cases hml : memory.filterMap memoryLine with
    | nil => rw [hml] at hmem; cases hmem
    | cons l ls =>
      rw [hml] at hmem
      have hsec : ("### MEMORY\n" ++ joinSep "\n" (l :: ls)) ∈
          promptSections chat ut cb memory history := by
        unfold promptSections promptFront
        rw [hml]
        simp
      apply CLSub_trans _ ("### MEMORY\n" ++ joinSep "\n" (l :: ls)).data _ _
        (CLSub_joinSep_of_mem "\n\n" _ _ hsec)
      apply CLSub_trans _ (joinSep "\n" (l :: ls)).data _ _
        (by rw [String.data_append]
            exact CLSub_mono_left _ _ _ ⟨[], [], by simp⟩)
      apply CLSub_trans _ ("- [" ++ m.kind ++ "] " ++ pyStrip m.content).data _ _
        (CLSub_joinSep_of_mem "\n" _ _ hmem)
      show CLSub (pyStrip m.content).data
        (("- [" ++ m.kind ++ "] ") ++ pyStrip m.content).data
      rw [String.data_append]
      exact CLSub_mono_left _ _ _ ⟨[], [], by simp⟩

set_option maxRecDepth 40000 in
/-- Witness for C5 at the spec's end-to-end scenario: prior turns
`("hi","hello!")` and `("what's 2+2","4")`, new message `"thanks"`,
profile `"likes cats"` carried as a memory item. -/
theorem c5_prompt_contains_witness :
    appearsInOrderCL
        ([("hi", "hello!"), ("what's 2+2", "4")].map renderTurnData ++
          [(newMessageSection "thanks").data])
        (buildPrompt ⟨"1", "private", "Ann", none, none⟩ "thanks" ""
          [⟨"profile", "likes cats", 1⟩]
          [("hi", "hello!"), ("what's 2+2", "4")] 18000).data ∧
    (∀ m ∈ [(⟨"profile", "likes cats", 1⟩ : MemoryItem)], pyStrip m.content ≠ "" →
      CLSub (pyStrip m.content).data
        (buildPrompt ⟨"1", "private", "Ann", none, none⟩ "thanks" ""
          [⟨"profile", "likes cats", 1⟩]
          [("hi", "hello!"), ("what's 2+2", "4")] 18000).data) :=
  c5_prompt_contains ⟨"1", "private", "Ann", none, none⟩ "thanks" ""
    [⟨"profile", "likes cats", 1⟩] [("hi", "hello!"), ("what's 2+2", "4")] 18000
    (by decide) (by decide)

set_option maxRecDepth 40000 in
/-- Counterexample to C5 as stated: a prior turn whose assistant text is
empty is silently dropped by `build_prompt`, so its user text `"hi"`
does not appear anywhere in the built prompt, let alone in order before
the new message. -/
theorem c5_counterexample :
    ¬ CLSub "hi".data
      (buildPrompt ⟨"1", "private", "Ann", none, none⟩ "thanks" ""
        [⟨"profile", "likes cats", 1⟩] [("hi", "")] 18000).data := by
  intro h
  exact absurd ((subListCL_iff _ _).2 h) (by decide)

/-- Counterexample to C4 as stated: on a reply with one embedded JSON
object followed by a stray close brace, the claimed "first top-level
span" extraction would recover the object (assistant text `"hi"`), but
the code's greedy regex takes the span through the stray brace, fails to
parse it, and falls back to the raw text. -/
theorem c4_counterexample :
    normalizeModelOutput
        "a \x7b\"assistant_text\":\"hi\",\"updated_user_description\":\"\"\x7d b\x7d" ≠
      claimStatedNormalize
        "a \x7b\"assistant_text\":\"hi\",\"updated_user_description\":\"\"\x7d b\x7d" := by
  decide

end ACB
